import Mathlib

/-!
Verification development for the tool-evolution safety pipeline of the
Kalshi prediction-agent repository.

The definitions below are a shallow embedding, translated from the Python
sources:

* `src/prediction_agent/evolution/schemas.py` (data model, pydantic
  validation),
* `src/prediction_agent/evolution/tool_lifecycle_manager.py`
  (`ToolLifecycleManager`),
* `src/prediction_agent/evolution/tool_verifier.py` (`verify_tool`,
  `_check_ast`, `_get_call_name`),
* `src/prediction_agent/evolution/tool_gap_analyzer.py` (`analyze_gaps`
  and the four detection passes).

Modelling conventions:

* Python floats are modelled exactly over `ℚ`; none of the proved
  properties depends on binary floating-point rounding.
* Python dicts keyed by strings are modelled as insertion-ordered
  association lists (`List (String × _)`).
* Wall-clock timestamp fields (`created_at`, `last_used_at`, `timestamp`)
  are omitted: no verified property reads them, and they are the only
  nondeterministic inputs of the code.
* File I/O (`_load`/`_save` of the lifecycle manager, `_load_entries` of
  the analyzer) is outside the embedding: the functions below act on the
  in-memory state / the already-loaded entry list, exactly as the Python
  bodies do between their I/O calls.
* Fallible Python code (code that can raise) is modelled with
  `Except String`.
-/

/-! ## Lifecycle data model (`schemas.py`, `ToolStatus` / `ToolLifecycleRecord`) -/

/-- `ToolStatus` enum from `schemas.py`: active / deprecated / pending. -/
inductive ToolStatus where
  | active
  | deprecated
  | pending
deriving DecidableEq, Repr

/-- `ToolLifecycleRecord` from `schemas.py` (timestamp fields omitted, see
module comment). Counters are naturals, score/latency totals rationals. -/
structure ToolLifecycleRecord where
  tool_name : String
  version : String
  usage_count : Nat
  total_score_contribution : ℚ
  correct_predictions : Nat
  total_predictions : Nat
  total_latency_ms : ℚ
  consecutive_underperformance : Nat
  status : ToolStatus
deriving DecidableEq, Repr

/-- A fresh record, as built by `ToolLifecycleRecord(tool_name=tool_name)`
with the pydantic field defaults. -/
def newRecord (name : String) : ToolLifecycleRecord :=
  { tool_name := name
    version := "0.1.0"
    usage_count := 0
    total_score_contribution := 0
    correct_predictions := 0
    total_predictions := 0
    total_latency_ms := 0
    consecutive_underperformance := 0
    status := ToolStatus.active }

/-- The manager's `_records` dict: insertion-ordered name → record map. -/
abbrev LifecycleState : Type := List (String × ToolLifecycleRecord)

/-- `self._records.get(tool_name)`: first binding of the name, if any. -/
def lookupRecord (s : LifecycleState) (name : String) : Option ToolLifecycleRecord :=
  match s with
  | [] => none
  | (n, r) :: rest => if n = name then some r else lookupRecord rest name

/-- `self._records[tool_name] = record`: overwrite the existing binding in
place, or append a new binding at the end (Python dict insertion order). -/
def setRecord (s : LifecycleState) (name : String) (r : ToolLifecycleRecord) : LifecycleState :=
  match s with
  | [] => [(name, r)]
  | (n, r0) :: rest =>
      if n = name then (n, r) :: rest else (n, r0) :: setRecord rest name r

/-! ## `ToolLifecycleManager.record_usage` / `check_deprecation` /
`get_active_tools` (`tool_lifecycle_manager.py`, lines 39–117) -/

/-- The per-record mutation performed by `record_usage` on the (possibly
fresh) record: bump counters, add score/latency, and update the
consecutive-underperformance counter (`score < threshold` increments,
otherwise reset to 0). -/
def applyUsage (r : ToolLifecycleRecord) (score_contribution : ℚ) (correct : Bool)
    (latency_ms : ℚ) (underperformance_threshold : ℚ) : ToolLifecycleRecord :=
  { r with
    usage_count := r.usage_count + 1
    total_score_contribution := r.total_score_contribution + score_contribution
    total_predictions := r.total_predictions + 1
    total_latency_ms := r.total_latency_ms + latency_ms
    correct_predictions := r.correct_predictions + (if correct then 1 else 0)
    consecutive_underperformance :=
      if score_contribution < underperformance_threshold then
        r.consecutive_underperformance + 1
      else 0 }

/-- `ToolLifecycleManager.record_usage` (lines 39–77): fetch or create the
record for the tool, apply the usage mutation, store it back. -/
def record_usage (s : LifecycleState) (tool_name : String) (score_contribution : ℚ)
    (correct : Bool) (latency_ms : ℚ) (underperformance_threshold : ℚ) : LifecycleState :=
  let record := (lookupRecord s tool_name).getD (newRecord tool_name)
  setRecord s tool_name
    (applyUsage record score_contribution correct latency_ms underperformance_threshold)

/-- `ToolLifecycleManager.check_deprecation` (lines 79–101). The config
constant `EVOLUTION_DEPRECATION_RUNS` is imported from a `config` module
that is not part of the sources; it is passed here as the `limit`
parameter. Returns the boolean result together with the possibly mutated
state (the status is flipped to deprecated at most once). -/
def check_deprecation (limit : Nat) (s : LifecycleState) (tool_name : String) :
    Bool × LifecycleState :=
  match lookupRecord s tool_name with
  | none => (false, s)
  | some record =>
      if limit ≤ record.consecutive_underperformance then
        if record.status ≠ ToolStatus.deprecated then
          (true, setRecord s tool_name { record with status := ToolStatus.deprecated })
        else (true, s)
      else (false, s)

/-- `ToolLifecycleManager.get_active_tools` (lines 111–117): names whose
record status equals `ACTIVE`. -/
def get_active_tools (s : LifecycleState) : List String :=
  (s.filter (fun p => p.2.status = ToolStatus.active)).map (fun p => p.1)

/-- Folding a list of usage events (score, correct, latency) for one tool
through `record_usage` with a fixed underperformance threshold. -/
def recordUsages (s : LifecycleState) (name : String) (events : List (ℚ × Bool × ℚ))
    (thr : ℚ) : LifecycleState :=
  events.foldl (fun st e => record_usage st name e.1 e.2.1 e.2.2 thr) s

/-- The public operations of the lifecycle manager, for closure statements
over arbitrary call sequences. -/
inductive LifecycleOp where
  | usage (name : String) (score : ℚ) (correct : Bool) (latency : ℚ) (thr : ℚ)
  | check (name : String)

/-- Apply one public operation to the state (the boolean result of
`check_deprecation` is discarded; only its state effect is kept). -/
def applyOp (limit : Nat) (s : LifecycleState) : LifecycleOp → LifecycleState
  | LifecycleOp.usage n sc c l t => record_usage s n sc c l t
  | LifecycleOp.check n => (check_deprecation limit s n).2

/-- Apply a sequence of public operations. -/
def applyOps (limit : Nat) (s : LifecycleState) (ops : List LifecycleOp) : LifecycleState :=
  ops.foldl (applyOp limit) s

/-! ## Lemmas about the lifecycle state -/

lemma lookup_setRecord_self (s : LifecycleState) (name : String) (r : ToolLifecycleRecord) :
    lookupRecord (setRecord s name r) name = some r := by
  induction s with
  | nil => simp [setRecord, lookupRecord]
  | cons p rest ih =>
      obtain ⟨n, r0⟩ := p
      by_cases h : n = name
      · simp [setRecord, lookupRecord, h]
      · simp [setRecord, lookupRecord, h, ih]

lemma lookup_setRecord_ne (s : LifecycleState) (name m : String) (r : ToolLifecycleRecord)
    (h : m ≠ name) : lookupRecord (setRecord s name r) m = lookupRecord s m := by
  induction s with
  | nil =>
      have hnm : ¬ (name = m) := fun hh => h hh.symm
      simp [setRecord, lookupRecord, hnm]
  | cons p rest ih =>
      obtain ⟨n, r0⟩ := p
      by_cases hn : n = name
      · subst hn
        have hnm : ¬ (n = m) := fun hh => h hh.symm
        simp [setRecord, lookupRecord, hnm]
      · simp [setRecord, lookupRecord, hn, ih]

lemma record_usage_lookup_self (s : LifecycleState) (name : String) (sc : ℚ) (c : Bool)
    (l thr : ℚ) :
    lookupRecord (record_usage s name sc c l thr) name
      = some (applyUsage ((lookupRecord s name).getD (newRecord name)) sc c l thr) := by
  simp [record_usage, lookup_setRecord_self]

lemma record_usage_lookup_ne (s : LifecycleState) (name m : String) (sc : ℚ) (c : Bool)
    (l thr : ℚ) (h : m ≠ name) :
    lookupRecord (record_usage s name sc c l thr) m = lookupRecord s m := by
  simp [record_usage, lookup_setRecord_ne _ _ _ _ h]

lemma applyUsage_status (r : ToolLifecycleRecord) (sc : ℚ) (c : Bool) (l thr : ℚ) :
    (applyUsage r sc c l thr).status = r.status := rfl

/-- The boolean returned by `check_deprecation` depends only on the looked-up
counter: `true` exactly when the record exists and its counter has reached
the limit. -/
lemma check_deprecation_fst (limit : Nat) (s : LifecycleState) (name : String) :
    (check_deprecation limit s name).1
      = match lookupRecord s name with
        | none => false
        | some r => decide (limit ≤ r.consecutive_underperformance) := by
  unfold check_deprecation
  rcases h : lookupRecord s name with _ | r
  · rfl
  · by_cases hle : limit ≤ r.consecutive_underperformance
    · by_cases hst : r.status ≠ ToolStatus.deprecated <;> simp [hle, hst]
    · simp [hle]

/-- After a run of below-threshold usages, an existing record's counter has
grown by the number of usages and its status is unchanged. -/
lemma recordUsages_below (name : String) (thr : ℚ) (events : List (ℚ × Bool × ℚ)) :
    ∀ (s : LifecycleState) (r : ToolLifecycleRecord),
      lookupRecord s name = some r → (∀ e ∈ events, e.1 < thr) →
      ∃ r', lookupRecord (recordUsages s name events thr) name = some r'
        ∧ r'.consecutive_underperformance
            = r.consecutive_underperformance + events.length
        ∧ r'.status = r.status := by
  induction events with
  | nil => intro s r h _; exact ⟨r, h, by simp, rfl⟩
  | cons e rest ih =>
      intro s r h hbelow
      have hstep : lookupRecord (record_usage s name e.1 e.2.1 e.2.2 thr) name
          = some (applyUsage r e.1 e.2.1 e.2.2 thr) := by
        rw [record_usage_lookup_self, h]; rfl
      have he : e.1 < thr := hbelow e (by simp)
      have hrest : ∀ x ∈ rest, x.1 < thr := fun x hx => hbelow x (by simp [hx])
      obtain ⟨r', h1, h2, h3⟩ :=
        ih (record_usage s name e.1 e.2.1 e.2.2 thr) (applyUsage r e.1 e.2.1 e.2.2 thr)
          hstep hrest
      refine ⟨r', h1, ?_, ?_⟩
      · rw [h2]
        simp [applyUsage, he]
        omega
      · rw [h3, applyUsage_status]


/-! ## Claim theorems about the lifecycle manager -/

/-- C3: for every deprecation limit (the `EVOLUTION_DEPRECATION_RUNS`
config value, assumed positive), tool, caller-supplied underperformance
threshold, and run of `k` consecutive usages all scoring strictly below
the threshold, starting from a state with no record for the tool:
`check_deprecation` returns true exactly when `k` has reached the limit
(so it first returns true at `k = limit`); the
`consecutive_underperformance` counter equals `k` after the run; and one
further usage whose score is not below the threshold resets the counter
to zero. -/
theorem lifecycle_deprecation_at_limit (limit : Nat) (hlim : 0 < limit)
    (s0 : LifecycleState) (name : String) (thr : ℚ) (events : List (ℚ × Bool × ℚ))
    (hfresh : lookupRecord s0 name = none)
    (hbelow : ∀ e ∈ events, e.1 < thr) :
    ((check_deprecation limit (recordUsages s0 name events thr) name).1
        = decide (limit ≤ events.length))
    ∧ (∀ r, lookupRecord (recordUsages s0 name events thr) name = some r →
          r.consecutive_underperformance = events.length)
    ∧ (∀ score correct latency, thr ≤ score →
        ∀ r, lookupRecord
              (record_usage (recordUsages s0 name events thr) name score correct latency thr)
              name = some r →
          r.consecutive_underperformance = 0) := by
  have hreset : ∀ (s : LifecycleState) score correct latency, thr ≤ score →
      ∀ r, lookupRecord (record_usage s name score correct latency thr) name = some r →
        r.consecutive_underperformance = 0 := by
    intro s score correct latency hsc r hr
    rw [record_usage_lookup_self] at hr
    have hnot : ¬ score < thr := not_lt.mpr hsc
    cases hr
    simp [applyUsage, hnot]
  rcases events with _ | ⟨e, rest⟩
  · refine ⟨?_, ?_, ?_⟩
    · rw [check_deprecation_fst]
      simp [recordUsages, hfresh]
      omega
    · intro r hr
      simp [recordUsages, hfresh] at hr
    · intro score correct latency hsc r hr
      exact hreset _ score correct latency hsc r hr
  · have hstep : lookupRecord (record_usage s0 name e.1 e.2.1 e.2.2 thr) name
        = some (applyUsage (newRecord name) e.1 e.2.1 e.2.2 thr) := by
      rw [record_usage_lookup_self, hfresh]; rfl
    have he : e.1 < thr := hbelow e (by simp)
    have hrest : ∀ x ∈ rest, x.1 < thr := fun x hx => hbelow x (by simp [hx])
    obtain ⟨r', h1, h2, h3⟩ := recordUsages_below name thr rest _ _ hstep hrest
    have hfold : recordUsages s0 name (e :: rest) thr
        = recordUsages (record_usage s0 name e.1 e.2.1 e.2.2 thr) name rest thr := rfl
    have hcount : r'.consecutive_underperformance = rest.length + 1 := by
      rw [h2]
      simp [applyUsage, newRecord, he]
      omega
    refine ⟨?_, ?_, ?_⟩
    · rw [check_deprecation_fst, hfold, h1]
      simp [hcount]
    · intro r hr
      rw [hfold, h1] at hr
      cases hr
      simpa using hcount
    · intro score correct latency hsc r hr
      exact hreset _ score correct latency hsc r hr

/-- Witness for C3 at a concrete input: a fresh tool, limit 2, threshold 0,
two usages at score −1 (below), then one at score 1 (not below). -/
theorem lifecycle_deprecation_at_limit_witness :
    ((check_deprecation 2 (recordUsages [] "t" [(-1, true, 0), (-1, false, 0)] 0) "t").1
        = decide (2 ≤ 2))
    ∧ (∀ r, lookupRecord (recordUsages [] "t" [(-1, true, 0), (-1, false, 0)] 0) "t" = some r →
          r.consecutive_underperformance = 2)
    ∧ (∀ score correct latency, (0 : ℚ) ≤ score →
        ∀ r, lookupRecord
              (record_usage (recordUsages [] "t" [(-1, true, 0), (-1, false, 0)] 0)
                "t" score correct latency 0) "t" = some r →
          r.consecutive_underperformance = 0) :=
  lifecycle_deprecation_at_limit 2 (by decide) [] "t" 0 [(-1, true, 0), (-1, false, 0)]
    (by rfl) (by intro e he; fin_cases he <;> norm_num)

/-- C4 (amended): `check_deprecation` returns true iff the tool has a
record whose `consecutive_underperformance` counter has reached the
deprecation limit — not iff the record's status is deprecated; when it
returns true the record's status is deprecated upon return, and for an
unknown name it returns false and leaves the state untouched (no record
is created). -/
theorem check_deprecation_characterization (limit : Nat) (s : LifecycleState) (name : String) :
    ((check_deprecation limit s name).1 = true ↔
        ∃ r, lookupRecord s name = some r ∧ limit ≤ r.consecutive_underperformance)
    ∧ (lookupRecord s name = none → check_deprecation limit s name = (false, s))
    ∧ ((check_deprecation limit s name).1 = true →
        ∀ r', lookupRecord (check_deprecation limit s name).2 name = some r' →
          r'.status = ToolStatus.deprecated) := by
  refine ⟨?_, ?_, ?_⟩
  · rw [check_deprecation_fst]
    rcases h : lookupRecord s name with _ | r
    · simp
    · simp
  · intro h
    unfold check_deprecation
    rw [h]
  · intro htrue r' hr'
    unfold check_deprecation at htrue hr'
    rcases h : lookupRecord s name with _ | r
    · rw [h] at htrue; simp at htrue
    · rw [h] at htrue hr'
      by_cases hle : limit ≤ r.consecutive_underperformance
      · by_cases hst : r.status = ToolStatus.deprecated
        · simp [hle, hst] at hr'
          rw [h] at hr'
          cases hr'
          exact hst
        · simp [hle, hst, lookup_setRecord_self] at hr'
          rw [← hr']
      · simp [hle] at htrue

/-- Witness for C4 at a concrete input: on the empty state the name is
unknown, so `check_deprecation` returns false and leaves the state
unchanged. -/
theorem check_deprecation_characterization_witness :
    check_deprecation 1 [] "t" = (false, ([] : LifecycleState)) :=
  (check_deprecation_characterization 1 [] "t").2.1 rfl

/-- The state reached (with deprecation limit 2 and threshold 0) by: two
below-threshold usages of tool `"t"`, a `check_deprecation` call (which
deprecates it), then one usage at score 1, which resets the counter. -/
def cexDeprecatedState : LifecycleState :=
  record_usage
    ((check_deprecation 2
        (record_usage (record_usage [] "t" (-1) false 0 0) "t" (-1) false 0 0) "t").2)
    "t" 1 false 0 0

/-- C4 counterexample: the claim "check_deprecation returns true iff the
record is (now) deprecated" fails on the code. In the reachable state
`cexDeprecatedState` the record of `"t"` has status deprecated, yet
`check_deprecation` returns false, because it tests the (reset)
consecutive-underperformance counter, not the status. -/
theorem check_deprecation_status_cex :
    (check_deprecation 2 cexDeprecatedState "t").1 = false
    ∧ (lookupRecord cexDeprecatedState "t").map ToolLifecycleRecord.status
        = some ToolStatus.deprecated := by
  constructor <;> rfl

/-- One public operation keeps a deprecated record deprecated: neither
`record_usage` (which never touches `status`) nor `check_deprecation`
(which only ever sets `status` to deprecated) can un-deprecate. -/
lemma applyOp_preserves_deprecated (limit : Nat) (s : LifecycleState) (op : LifecycleOp)
    (name : String) (r : ToolLifecycleRecord)
    (h : lookupRecord s name = some r) (hd : r.status = ToolStatus.deprecated) :
    ∃ r', lookupRecord (applyOp limit s op) name = some r'
      ∧ r'.status = ToolStatus.deprecated := by
  cases op with
  | usage n sc c l t =>
      by_cases hn : name = n
      · subst hn
        refine ⟨applyUsage ((lookupRecord s name).getD (newRecord name)) sc c l t, ?_, ?_⟩
        · simpa [applyOp] using record_usage_lookup_self s name sc c l t
        · rw [applyUsage_status, h]
          simpa using hd
      · exact ⟨r, by
          simpa [applyOp] using (record_usage_lookup_ne s n name sc c l t hn).trans h, hd⟩
  | check n =>
      simp only [applyOp]
      unfold check_deprecation
      rcases hn : lookupRecord s n with _ | rec
      · exact ⟨r, h, hd⟩
      · by_cases hle : limit ≤ rec.consecutive_underperformance
        · by_cases hst : rec.status = ToolStatus.deprecated
          · simp only [hle, hst, if_true, ne_eq, not_true_eq_false, if_false, if_neg]
            exact ⟨r, h, hd⟩
          · simp only [hle, if_true, ne_eq, hst, not_false_eq_true, if_pos]
            by_cases hnm : name = n
            · subst hnm
              exact ⟨{ rec with status := ToolStatus.deprecated },
                lookup_setRecord_self s name _, rfl⟩
            · exact ⟨r, (lookup_setRecord_ne s n name _ hnm).trans h, hd⟩
        · simp only [hle, if_false]
          exact ⟨r, h, hd⟩

/-- C5: deprecation is one-way. If a tool's record is deprecated, then
after any sequence of `record_usage` / `check_deprecation` calls (for any
tools and parameters) its record still exists and is still deprecated. -/
theorem deprecation_one_way (limit : Nat) (ops : List LifecycleOp) :
    ∀ (s : LifecycleState) (name : String) (r : ToolLifecycleRecord),
      lookupRecord s name = some r → r.status = ToolStatus.deprecated →
      ∃ r', lookupRecord (applyOps limit s ops) name = some r'
        ∧ r'.status = ToolStatus.deprecated := by
  induction ops with
  | nil => intro s name r h hd; exact ⟨r, h, hd⟩
  | cons op rest ih =>
      intro s name r h hd
      obtain ⟨r1, h1, hd1⟩ := applyOp_preserves_deprecated limit s op name r h hd
      exact ih (applyOp limit s op) name r1 h1 hd1

/-- A one-record state whose tool `"t"` is deprecated. -/
def depWitnessState : LifecycleState :=
  [("t", { newRecord "t" with status := ToolStatus.deprecated })]

/-- Witness for C5 at a concrete input: the deprecated tool stays
deprecated across a good usage followed by a deprecation check. -/
theorem deprecation_one_way_witness :
    ∃ r', lookupRecord
        (applyOps 1 depWitnessState
          [LifecycleOp.usage "t" 1 true 0 0, LifecycleOp.check "t"]) "t" = some r'
      ∧ r'.status = ToolStatus.deprecated :=
  deprecation_one_way 1 [LifecycleOp.usage "t" 1 true 0 0, LifecycleOp.check "t"]
    depWitnessState "t" { newRecord "t" with status := ToolStatus.deprecated } rfl rfl

/-- A one-record state whose tool has status pending. Such states arise
through `_load`, since the persisted schema admits all three statuses. -/
def pendState : LifecycleState :=
  [("pending_tool", { newRecord "pending_tool" with status := ToolStatus.pending })]

/-- C6 counterexample: the claim "get_active_tools returns exactly the
names whose status is not deprecated, including pending records" fails on
the code: a pending record is not deprecated, yet its name is missing
from the result, because the code filters on `status == ACTIVE`. -/
theorem get_active_tools_pending_cex :
    get_active_tools pendState = []
    ∧ (lookupRecord pendState "pending_tool").map ToolLifecycleRecord.status
        = some ToolStatus.pending
    ∧ ToolStatus.pending ≠ ToolStatus.deprecated := by
  refine ⟨rfl, rfl, by decide⟩

/-- C6 (amended): `get_active_tools` returns exactly the names whose
record status is `active`; records with status pending or deprecated are
excluded. -/
theorem get_active_tools_characterization (s : LifecycleState) (name : String) :
    name ∈ get_active_tools s ↔ ∃ r, (name, r) ∈ s ∧ r.status = ToolStatus.active := by
  unfold get_active_tools
  constructor
  · intro h
    rw [List.mem_map] at h
    obtain ⟨⟨n, r⟩, hp, hname⟩ := h
    rw [List.mem_filter] at hp
    have hn : n = name := by simpa using hname
    subst hn
    exact ⟨r, hp.1, by simpa using hp.2⟩
  · rintro ⟨r, hmem, hst⟩
    rw [List.mem_map]
    refine ⟨(name, r), ?_, rfl⟩
    rw [List.mem_filter]
    exact ⟨hmem, by simp [hst]⟩

/-! ## `ToolSpec` (`schemas.py`, lines 72–97)

Pydantic construction of `ToolSpec`: the field constraints are
`tool_name: min_length=1`, `description: min_length=1`,
`expected_token_reduction ≥ 0`, `expected_accuracy_gain ≥ 0`, plus the two
field validators `must_be_deterministic` (rejects `deterministic=False`)
and `reject_high_risk` (rejects `risk_level="high"`). Pydantic collects
all violations; acceptance means every constraint holds, which the
short-circuit order below preserves. -/

/-- `RiskLevel` enum from `schemas.py`. -/
inductive RiskLevel where
  | low
  | medium
  | high
deriving DecidableEq, Repr

/-- The raw field values handed to the `ToolSpec` constructor (after JSON
deserialization). -/
structure ToolSpecFields where
  tool_name : String
  description : String
  inputs : List (String × String)
  output_type : String
  deterministic : Bool
  data_sources : List String
  expected_token_reduction : ℚ
  expected_accuracy_gain : ℚ
  risk_level : RiskLevel
deriving DecidableEq, Repr

/-- `ToolSpec(...)` construction: returns the validated spec, or a
validation error. -/
def mkToolSpec (f : ToolSpecFields) : Except String ToolSpecFields :=
  if f.tool_name.length < 1 then Except.error "tool_name: min_length 1"
  else if f.description.length < 1 then Except.error "description: min_length 1"
  else if f.expected_token_reduction < 0 then Except.error "expected_token_reduction: ge 0"
  else if f.expected_accuracy_gain < 0 then Except.error "expected_accuracy_gain: ge 0"
  else if f.deterministic = false then Except.error "Generated tools must be deterministic."
  else if f.risk_level = RiskLevel.high then Except.error "High-risk tools are rejected at spec level."
  else Except.ok f

/-- Concrete constructor input whose tool name does not end in `_tool`. -/
def noSuffixFields : ToolSpecFields :=
  { tool_name := "x"
    description := "d"
    inputs := []
    output_type := "float"
    deterministic := true
    data_sources := []
    expected_token_reduction := 0
    expected_accuracy_gain := 0
    risk_level := RiskLevel.low }

/-- C2 counterexample: the claim that every accepted `ToolSpec` has a tool
name ending in a `_tool`-style suffix fails on the code: construction
accepts the name `"x"`. The suffix requirement exists only in the LLM
prompt of `tool_spec_generator.py`, not in the validators of
`schemas.py`. -/
theorem toolspec_no_suffix_cex :
    mkToolSpec noSuffixFields = Except.ok noSuffixFields
    ∧ noSuffixFields.tool_name.endsWith "_tool" = false := by
  constructor <;> rfl

/-- C2 (amended): every `ToolSpec` accepted at construction time has a
nonempty tool name, `deterministic = true` (false is rejected at
construction time) and a risk classification that is not high (high is
rejected at construction time); no `_tool` suffix is required. -/
theorem toolspec_accepted_contract (f s : ToolSpecFields)
    (h : mkToolSpec f = Except.ok s) :
    s = f ∧ f.deterministic = true ∧ f.risk_level ≠ RiskLevel.high
      ∧ 1 ≤ f.tool_name.length := by
  unfold mkToolSpec at h
  by_cases h1 : f.tool_name.length < 1
  · simp [h1] at h
  · by_cases h2 : f.description.length < 1
    · simp [h1, h2] at h
    · by_cases h3 : f.expected_token_reduction < 0
      · simp [h1, h2, h3] at h
      · by_cases h4 : f.expected_accuracy_gain < 0
        · simp [h1, h2, h3, h4] at h
        · by_cases h5 : f.deterministic = false
          · simp [h1, h2, h3, h4, h5] at h
          · by_cases h6 : f.risk_level = RiskLevel.high
            · simp [h1, h2, h3, h4, h5, h6] at h
            · simp [h1, h2, h3, h4, h5, h6] at h
              exact ⟨h.symm, by simpa using h5, h6, by omega⟩

/-- Witness for C2 (amended) at a concrete input: the accepted spec
`noSuffixFields`. -/
theorem toolspec_accepted_contract_witness :
    noSuffixFields = noSuffixFields ∧ noSuffixFields.deterministic = true
      ∧ noSuffixFields.risk_level ≠ RiskLevel.high
      ∧ 1 ≤ noSuffixFields.tool_name.length :=
  toolspec_accepted_contract noSuffixFields noSuffixFields rfl

/-! ## Candidate verifier (`tool_verifier.py`)

`_check_ast` (lines 190–252) walks the parsed syntax tree of the candidate
source. The walk is modelled as the list of visited nodes, each node
carrying exactly the data the checks inspect (parsing itself is done by
Python's `ast` module, outside this code). Phases 2 and 3
(`_check_runtime`, `_check_determinism`) dynamically import and execute
the candidate on a separate thread; their internals are not shallowly
embeddable, so `verify_tool` takes their `(passed, reason)` outcomes as
oracle parameters and embeds the composition logic of lines 61–94 and
178–183 exactly (the manual-approval block, lines 98–176, only performs
I/O side effects and never changes the returned result). -/

/-- `_BLOCKED_IMPORTS` (lines 27–37). -/
def BLOCKED_IMPORTS : List String :=
  ["os", "subprocess", "sys", "shutil", "socket", "http", "requests", "urllib", "random"]

/-- `_BLOCKED_CALLS` (lines 40–47). -/
def BLOCKED_CALLS : List String :=
  ["exec", "eval", "__import__", "compile", "globals", "locals"]

/-- A constant argument as far as the checks care: a string literal, or
anything else. -/
inductive PyConst where
  | strLit (s : String)
  | otherConst
deriving DecidableEq, Repr

/-- The callee shape of an `ast.Call`: a plain name, an attribute access
(with the base recorded when it is a plain name), or anything else. -/
inductive CallFunc where
  | nameFunc (id : String)
  | attrFunc (valueName : Option String) (attr : String)
  | otherFunc
deriving DecidableEq, Repr

/-- One visited AST node, carrying the fields `_check_ast` inspects:
`ast.Import` (the dotted alias names), `ast.ImportFrom` (the optional
module), `ast.Call` (callee, positional args, keyword args), or any other
node kind. -/
inductive PyNode where
  | importNode (names : List String)
  | importFromNode (module : Option String)
  | callNode (func : CallFunc) (args : List PyConst) (keywords : List (Option String × PyConst))
  | otherNode
deriving DecidableEq, Repr

/-- `alias.name.split(".")[0]` / `node.module.split(".")[0]`: the prefix
of the dotted name before its first dot (the whole name when it has no
dot; empty only when the name starts with a dot or is empty). -/
def topModule (s : String) : String := String.mk (s.data.takeWhile (fun c => c ≠ '.'))

/-- `_get_call_name` (lines 246–252). -/
def getCallName : CallFunc → String
  | CallFunc.nameFunc id => id
  | CallFunc.attrFunc _ a => a
  | CallFunc.otherFunc => ""

/-- `"w" in mode_value or "a" in mode_value`. -/
def modeBad (m : String) : Bool := m.contains 'w' || m.contains 'a'

/-- The `os.system`-style check: an attribute call whose base is a plain
name on the import deny-list. -/
def attrViolation : CallFunc → Option String
  | CallFunc.attrFunc (some vid) a =>
      if vid ∈ BLOCKED_IMPORTS then some ("Blocked call: " ++ vid ++ "." ++ a) else none
  | _ => none

/-- `open()` with a write/append mode as the second positional argument. -/
def openPosViolation (fname : String) (args : List PyConst) : Option String :=
  if fname = "open" ∧ 2 ≤ args.length then
    match args[1]? with
    | some (PyConst.strLit m) =>
        if modeBad m then some "Blocked: open() in write/append mode" else none
    | _ => none
  else none

/-- `open()` with a write/append mode as a `mode=` keyword argument. -/
def openKwViolation (fname : String) (kws : List (Option String × PyConst)) : Option String :=
  if fname = "open" then
    (kws.find? (fun kw =>
        kw.1 == some "mode" &&
          (match kw.2 with | PyConst.strLit m => modeBad m | _ => false))).map
      (fun _ => "Blocked: open() in write/append mode")
  else none

/-- The `ast.Call` checks of `_check_ast`, in source order: deny-listed
callee name, deny-listed attribute base, positional open mode, keyword
open mode. -/
def callViolation (f : CallFunc) (args : List PyConst)
    (kws : List (Option String × PyConst)) : Option String :=
  let fname := getCallName f
  if fname ∈ BLOCKED_CALLS then some ("Blocked function call: " ++ fname)
  else (attrViolation f).or ((openPosViolation fname args).or (openKwViolation fname kws))

/-- The per-node check of the `ast.walk` loop in `_check_ast`: the first
violated rule's reason, if any. -/
def nodeViolation : PyNode → Option String
  | PyNode.importNode names =>
      (names.find? (fun n => decide (topModule n ∈ BLOCKED_IMPORTS))).map
        (fun n => "Blocked import: " ++ n)
  | PyNode.importFromNode m =>
      match m with
      | some mod =>
          if topModule mod ∈ BLOCKED_IMPORTS then some ("Blocked import from: " ++ mod)
          else none
      | none => none
  | PyNode.callNode f args kws => callViolation f args kws
  | PyNode.otherNode => none

/-- `_check_ast` over the walked node list: the first violation rejects
with its reason; otherwise `(True, "")`. -/
def checkAst : List PyNode → Bool × String
  | [] => (true, "")
  | n :: rest =>
      match nodeViolation n with
      | some r => (false, r)
      | none => checkAst rest

/-- `VerificationResult` from `schemas.py` (the `checks` dict is an
insertion-ordered association list). -/
structure VerificationResult where
  tool_name : String
  passed : Bool
  checks : List (String × Bool)
  rejection_reason : Option String
deriving DecidableEq, Repr

/-- `verify_tool` (lines 61–94 and 178–183): run phase 1 on the walked
tree, then consult the phase 2 and phase 3 oracle outcomes, stopping at
the first failure; `checks` records exactly the phases run. -/
def verify_tool (tree : List PyNode) (runtimeRes detRes : Bool × String)
    (tool_name : String) : VerificationResult :=
  let astRes := checkAst tree
  if astRes.1 = false then
    { tool_name := tool_name, passed := false
      checks := [("ast_inspection", false)]
      rejection_reason := some ("AST inspection failed: " ++ astRes.2) }
  else if runtimeRes.1 = false then
    { tool_name := tool_name, passed := false
      checks := [("ast_inspection", true), ("runtime_sandbox", false)]
      rejection_reason := some ("Runtime sandbox failed: " ++ runtimeRes.2) }
  else if detRes.1 = false then
    { tool_name := tool_name, passed := false
      checks := [("ast_inspection", true), ("runtime_sandbox", true), ("determinism", false)]
      rejection_reason := some ("Determinism check failed: " ++ detRes.2) }
  else
    { tool_name := tool_name, passed := true
      checks := [("ast_inspection", true), ("runtime_sandbox", true), ("determinism", true)]
      rejection_reason := none }

/-- Substring containment, for "the reason string contains the module
name". -/
def strContains (s sub : String) : Prop :=
  ∃ p q : List Char, s.data = p ++ sub.data ++ q

/-! ## Lemmas about `checkAst` and `verify_tool` -/

/-- Walking past a clean prefix of nodes does not change the outcome. -/
lemma checkAst_append_clean (pre rest : List PyNode)
    (h : ∀ n ∈ pre, nodeViolation n = none) :
    checkAst (pre ++ rest) = checkAst rest := by
  induction pre with
  | nil => rfl
  | cons n pre ih =>
      rw [List.cons_append]
      have hn : nodeViolation n = none := h n (List.mem_cons_self n pre)
      simp only [checkAst, hn]
      exact ih (fun x hx => h x (List.mem_cons_of_mem n hx))

/-- On a deny-listed module name the import node check fires with the
first blocked alias. -/
lemma importNode_first_blocked (ns1 ns2 : List String) (m : String)
    (hm : m ∈ BLOCKED_IMPORTS) (hns1 : ∀ a ∈ ns1, topModule a ∉ BLOCKED_IMPORTS) :
    nodeViolation (PyNode.importNode (ns1 ++ m :: ns2))
      = some ("Blocked import: " ++ m) := by
  have htop : topModule m = m := by
    have hall : ∀ x ∈ BLOCKED_IMPORTS, topModule x = x := by decide
    exact hall m hm
  induction ns1 with
  | nil =>
      simp only [nodeViolation, List.nil_append, List.find?]
      rw [htop]
      simp [hm]
  | cons a rest ih =>
      have ha : topModule a ∉ BLOCKED_IMPORTS := hns1 a (List.mem_cons_self a rest)
      have hrest : ∀ x ∈ rest, topModule x ∉ BLOCKED_IMPORTS :=
        fun x hx => hns1 x (List.mem_cons_of_mem a hx)
      have ihr := ih hrest
      simp only [nodeViolation, List.cons_append, List.find?] at ihr ⊢
      simp only [ha, decide_False] at *
      exact ihr

/-- C1 (amended): for every candidate whose first static violation is a
deny-listed import with module name `m` (clean nodes before it, no
blocked alias before `m` in the import statement), `verify_tool` returns
`passed = false`; the checks map is exactly `ast_inspection = false` (the
code's key for the static-inspection phase — the spec name
`static_inspection` does not occur); the rejection reason is the phase-1
message containing the module name `m`; and the result does not depend on
the sandbox-execution or determinism oracles, i.e. those phases never
run. -/
theorem verify_blocked_import
    (pre suf : List PyNode) (ns1 ns2 : List String) (m tool_name : String)
    (rt rt' dt dt' : Bool × String)
    (hm : m ∈ BLOCKED_IMPORTS)
    (hpre : ∀ n ∈ pre, nodeViolation n = none)
    (hns1 : ∀ a ∈ ns1, topModule a ∉ BLOCKED_IMPORTS) :
    (verify_tool (pre ++ PyNode.importNode (ns1 ++ m :: ns2) :: suf) rt dt tool_name).passed
        = false
    ∧ (verify_tool (pre ++ PyNode.importNode (ns1 ++ m :: ns2) :: suf) rt dt tool_name).checks
        = [("ast_inspection", false)]
    ∧ (verify_tool (pre ++ PyNode.importNode (ns1 ++ m :: ns2) :: suf) rt dt
          tool_name).rejection_reason
        = some ("AST inspection failed: Blocked import: " ++ m)
    ∧ strContains ("AST inspection failed: Blocked import: " ++ m) m
    ∧ verify_tool (pre ++ PyNode.importNode (ns1 ++ m :: ns2) :: suf) rt dt tool_name
        = verify_tool (pre ++ PyNode.importNode (ns1 ++ m :: ns2) :: suf) rt' dt' tool_name := by
  have hAst : checkAst (pre ++ PyNode.importNode (ns1 ++ m :: ns2) :: suf)
      = (false, "Blocked import: " ++ m) := by
    rw [checkAst_append_clean pre _ hpre]
    simp [checkAst, importNode_first_blocked ns1 ns2 m hm hns1]
  refine ⟨?_, ?_, ?_, ?_, ?_⟩
  · simp [verify_tool, hAst]
  · simp [verify_tool, hAst]
  · simp [verify_tool, hAst]
    rw [← String.append_assoc]
    rfl
  · exact ⟨("AST inspection failed: Blocked import: ").data, [],
      by simp [String.data_append]⟩
  · simp [verify_tool, hAst]

/-- Witness for C1 (amended) at a concrete input: a candidate whose only
statement is `import os`. -/
theorem verify_blocked_import_witness :
    (verify_tool [PyNode.importNode ["os"]] (true, "") (true, "") "cand_tool").passed = false
    ∧ (verify_tool [PyNode.importNode ["os"]] (true, "") (true, "") "cand_tool").checks
        = [("ast_inspection", false)]
    ∧ (verify_tool [PyNode.importNode ["os"]] (true, "") (true, "")
          "cand_tool").rejection_reason
        = some ("AST inspection failed: Blocked import: " ++ "os")
    ∧ strContains ("AST inspection failed: Blocked import: " ++ "os") "os"
    ∧ verify_tool [PyNode.importNode ["os"]] (true, "") (true, "") "cand_tool"
        = verify_tool [PyNode.importNode ["os"]] (false, "x") (false, "y") "cand_tool" :=
  verify_blocked_import [] [] [] [] "os" "cand_tool" (true, "") (false, "x") (true, "")
    (false, "y") (by decide) (by intro n hn; cases hn) (by intro a ha; cases ha)

/-- C1 counterexample (claim as stated): for the candidate `import os`,
the returned checks map has no `static_inspection` key at all — the code
records the phase under the key `ast_inspection` — even though the
candidate is rejected as the claim describes. -/
theorem verify_static_inspection_key_cex :
    (verify_tool [PyNode.importNode ["os"]] (true, "") (true, "") "cand_tool").passed = false
    ∧ ((verify_tool [PyNode.importNode ["os"]] (true, "") (true, "") "cand_tool").checks.lookup
        "static_inspection") = none
    ∧ (verify_tool [PyNode.importNode ["os"]] (true, "") (true, "") "cand_tool").checks
        = [("ast_inspection", false)]
    ∧ (verify_tool [PyNode.importNode ["os"]] (true, "") (true, "")
          "cand_tool").rejection_reason
        = some "AST inspection failed: Blocked import: os" := by
  refine ⟨rfl, rfl, rfl, rfl⟩

/-- C10: every `VerificationResult` returned by `verify_tool` has
`passed = true` iff `rejection_reason = none`; and on failure, the checks
map records exactly the phases run — every phase before the failing one
true, the failing phase false — and the rejection reason names the
failing phase. -/
theorem verify_result_invariant (tree : List PyNode) (rt dt : Bool × String)
    (tool_name : String) :
    ((verify_tool tree rt dt tool_name).passed = true ↔
        (verify_tool tree rt dt tool_name).rejection_reason = none)
    ∧ ((verify_tool tree rt dt tool_name).passed = false →
        ((verify_tool tree rt dt tool_name).checks = [("ast_inspection", false)]
            ∧ ∃ s, (verify_tool tree rt dt tool_name).rejection_reason
                = some ("AST inspection failed: " ++ s))
        ∨ ((verify_tool tree rt dt tool_name).checks
              = [("ast_inspection", true), ("runtime_sandbox", false)]
            ∧ ∃ s, (verify_tool tree rt dt tool_name).rejection_reason
                = some ("Runtime sandbox failed: " ++ s))
        ∨ ((verify_tool tree rt dt tool_name).checks
              = [("ast_inspection", true), ("runtime_sandbox", true), ("determinism", false)]
            ∧ ∃ s, (verify_tool tree rt dt tool_name).rejection_reason
                = some ("Determinism check failed: " ++ s))) := by
  cases hA : (checkAst tree).1 with
  | false =>
      constructor
      · simp [verify_tool, hA]
      · intro _
        exact Or.inl ⟨by simp [verify_tool, hA], (checkAst tree).2, by simp [verify_tool, hA]⟩
  | true =>
      cases hR : rt.1 with
      | false =>
          constructor
          · simp [verify_tool, hA, hR]
          · intro _
            exact Or.inr (Or.inl ⟨by simp [verify_tool, hA, hR], rt.2,
              by simp [verify_tool, hA, hR]⟩)
      | true =>
          cases hD : dt.1 with
          | false =>
              constructor
              · simp [verify_tool, hA, hR, hD]
              · intro _
                exact Or.inr (Or.inr ⟨by simp [verify_tool, hA, hR, hD], dt.2,
                  by simp [verify_tool, hA, hR, hD]⟩)
          | true =>
              constructor
              · simp [verify_tool, hA, hR, hD]
              · intro hfalse
                exact absurd hfalse (by simp [verify_tool, hA, hR, hD])

/-- Witness for C10 at a concrete input: an empty (clean) candidate whose
sandbox phase fails. -/
theorem verify_result_invariant_witness :
    (verify_tool [] (false, "boom") (true, "") "t").checks
        = [("ast_inspection", true), ("runtime_sandbox", false)]
    ∧ ∃ s, (verify_tool [] (false, "boom") (true, "") "t").rejection_reason
        = some ("Runtime sandbox failed: " ++ s) := by
  have h := (verify_result_invariant [] (false, "boom") (true, "") "t").2 rfl
  rcases h with h | h | h
  · exact absurd h.1 (by decide)
  · exact h
  · exact absurd h.1 (by decide)

/-! ## Gap analyzer (`tool_gap_analyzer.py`)

`analyze_gaps` (lines 43–113) operates on the list of raw JSON dicts
produced by `_load_entries`. A loaded entry is modelled by the four keys
the analyzer reads; each key is either absent (`none`) or holds a JSON
value, modelled by `PyVal` (a number — Python int/float collapsed into
`ℚ` — a string, or JSON null). Operations that would raise a Python
`TypeError`/`AttributeError` on an ill-typed value return `Except.error`,
at the same point in entry order as the Python loop. `round(x, 1)` on the
reported token-waste figure (a float-formatting detail) is modelled as
the exact value. -/

/-- A loaded JSON value in one of the fields the analyzer reads. -/
inductive PyVal where
  | num (q : ℚ)
  | str (s : String)
  | null
deriving DecidableEq, Repr

/-- Python truthiness of a loaded value. -/
def truthy : PyVal → Bool
  | PyVal.num q => decide (q ≠ 0)
  | PyVal.str s => decide (s ≠ "")
  | PyVal.null => false

/-- Use a value as a number, as Python arithmetic/comparison against a
float does: anything but a number raises. -/
def asNum : PyVal → Except String ℚ
  | PyVal.num q => Except.ok q
  | _ => Except.error "TypeError"

/-- A Python `for` loop threading an accumulator through fallible steps:
stops at the first raised exception. -/
def foldExcept {α β : Type} (f : β → α → Except String β) : β → List α → Except String β
  | b, [] => Except.ok b
  | b, a :: rest => do
      let b1 ← f b a
      foldExcept f b1 rest

/-- A Python `for` loop collecting one fallible result per element, in
order, stopping at the first raised exception. -/
def mapExcept {α β : Type} (f : α → Except String β) : List α → Except String (List β)
  | [] => Except.ok []
  | a :: rest => do
      let b ← f a
      let bs ← mapExcept f rest
      pure (b :: bs)

/-- `str.lower()` (ASCII case folding; the corpora reasoned about here are
ASCII). -/
def pyLower (s : String) : String := String.mk (s.data.map Char.toLower)

/-- One entry of `execution_logs.jsonl` as the analyzer sees it: the four
keys it reads, each possibly absent. Other keys are never read. -/
structure LogEntry where
  final_score : Option PyVal := none
  threshold : Option PyVal := none
  total_tokens_used : Option PyVal := none
  reasoning_segments : Option PyVal := none
deriving DecidableEq, Repr

/-- `e.get("final_score", 0.0)`. -/
def get_final_score (e : LogEntry) : PyVal := e.final_score.getD (PyVal.num 0)

/-- `e.get("threshold", 0.5)`. -/
def get_threshold (e : LogEntry) : PyVal := e.threshold.getD (PyVal.num 0.5)

/-- `e.get("total_tokens_used", 0)`. -/
def get_tokens (e : LogEntry) : PyVal := e.total_tokens_used.getD (PyVal.num 0)

/-- `e.get("reasoning_segments", "")`. -/
def get_reasoning (e : LogEntry) : PyVal := e.reasoning_segments.getD (PyVal.str "")

/-- `GapReport` from `schemas.py`. The `evidence` dict — a pass-specific
diagnostic payload never read by any code in the subsystem — is omitted;
`priority_score` is constructed as `min(1.0, _)` of a nonnegative value
everywhere, so the pydantic `[0,1]` bound never rejects. -/
structure GapReport where
  problem_detected : String
  estimated_token_waste : ℚ
  priority_score : ℚ
deriving DecidableEq, Repr

/-- `_detect_low_confidence` (lines 120–145). -/
def detect_low_confidence (entries : List LogEntry) : Except String (Option GapReport) := do
  let close_calls ← foldExcept (fun acc e => do
    let score ← asNum (get_final_score e)
    let threshold ← asNum (get_threshold e)
    pure (if |score - threshold| ≤ 0.05 then acc + 1 else acc)) (0 : Nat) entries
  let total := entries.length
  let ratio : ℚ := if 0 < total then (close_calls : ℚ) / (total : ℚ) else 0
  if ratio < 0.3 then pure none
  else pure (some
    { problem_detected := "High frequency of borderline predictions (score near threshold)"
      estimated_token_waste := 0
      priority_score := min 1 (ratio * 1.2) })

/-- `_detect_high_token_usage` (lines 148–176). `int(len * 0.9)` is the
exact floor `9·len / 10` (no claim depends on the percentile value). -/
def detect_high_token_usage (entries : List LogEntry) : Except String (Option GapReport) := do
  let raw := entries.map get_tokens
  let token_counts ← foldExcept (fun acc t => do
    let q ← asNum t
    pure (if 0 < q then acc ++ [q] else acc)) ([] : List ℚ) raw
  if token_counts.length < 3 then pure none
  else
    let sorted_tokens := token_counts.mergeSort (fun a b => decide (a ≤ b))
    let p90_idx := sorted_tokens.length * 9 / 10
    let p90 := sorted_tokens.getD (min p90_idx (sorted_tokens.length - 1)) 0
    let mean_tokens : ℚ := token_counts.sum / (token_counts.length : ℚ)
    let high := token_counts.filter (fun t => decide (p90 < t))
    let waste := (high.map (fun t => t - mean_tokens)).sum
    if high.length < 2 then pure none
    else pure (some
      { problem_detected := "Repeated high token usage runs detected"
        estimated_token_waste := waste
        priority_score :=
          min 1 (0.4 + waste / (max (mean_tokens * (token_counts.length : ℚ)) 1) * 0.6) })

/-- A regex word character of `\w+` (ASCII range; the corpora reasoned
about here are ASCII). -/
def isWordChar (c : Char) : Bool := c.isAlphanum || c = '_'

/-- Splitting a character list into the maximal runs of word characters
(`re.findall(r"\w+", s)`); `cur` is the current run, reversed. -/
def splitWordsAux : List Char → List Char → List String
  | [], cur => if cur.isEmpty then [] else [String.mk cur.reverse]
  | c :: rest, cur =>
      if isWordChar c then splitWordsAux rest (c :: cur)
      else if cur.isEmpty then splitWordsAux rest []
      else String.mk cur.reverse :: splitWordsAux rest []

/-- `re.findall(r"\w+", s)`. -/
def findAllWords (s : String) : List String := splitWordsAux s.data []

/-- The word 3-grams of a word list, joined by single spaces
(`" ".join(words[i : i + 3])` for each window). -/
def trigrams : List String → List String
  | w1 :: w2 :: w3 :: rest => (w1 ++ " " ++ w2 ++ " " ++ w3) :: trigrams (w2 :: w3 :: rest)
  | _ => []

/-- Per-entry tokenization of `_detect_repeated_reasoning`: skip a falsy
rationale, lower-case and split a string one, raise (`AttributeError`:
no `.lower()`) on a truthy non-string one. -/
def reasoningWords3 (e : LogEntry) : Except String (List String) :=
  let r := get_reasoning e
  if truthy r = false then Except.ok []
  else match r with
    | PyVal.str s => Except.ok (findAllWords (pyLower s))
    | _ => Except.error "AttributeError"

/-- `_detect_repeated_reasoning` (lines 179–210): count every trigram
occurrence across the corpus (a trigram occurring several times inside one
rationale is counted with multiplicity, exactly as the `Counter` does)
and keep the distinct trigrams whose total count reaches
`threshold_count = len(entries) * 0.5`. For a natural count and length,
`count >= len * 0.5` (exact in binary floating point for any list length)
is exactly `len ≤ 2 * count`, which is how the comparison is written
here. -/
def detect_repeated_reasoning (entries : List LogEntry) : Except String (Option GapReport) := do
  let gramLists ← mapExcept (fun e => do
    let ws ← reasoningWords3 e
    pure (trigrams ws)) entries
  let all_ngrams := gramLists.flatten
  let repeated := all_ngrams.dedup.filter
    (fun g => decide (entries.length ≤ 2 * all_ngrams.count g))
  if repeated.length < 2 then pure none
  else pure (some
    { problem_detected := "Repeated reasoning patterns across runs suggest missing tooling"
      estimated_token_waste := (((repeated.map (fun g => all_ngrams.count g)).sum * 3 : Nat) : ℚ)
      priority_score := min 1 ((repeated.length : ℚ) / 10) })

/-- `_IMPLICIT_CALC_KEYWORDS` (lines 24–37). -/
def IMPLICIT_CALC_KEYWORDS : List String :=
  ["probability", "convert", "implied odds", "calculate", "compute", "multiply",
   "divide", "percentage", "ratio", "normalize", "weighted average", "expected value"]

/-- Non-overlapping left-to-right substring count (`str.count`), over
character lists: at a match the needle is consumed whole (`skip` counts
the remaining positions to pass over after a match). -/
def countOccsAux (nd : List Char) : List Char → Nat → Nat
  | [], _ => 0
  | c :: rest, skip =>
      if 0 < skip then countOccsAux nd rest (skip - 1)
      else if nd.isPrefixOf (c :: rest) then 1 + countOccsAux nd rest (nd.length - 1)
      else countOccsAux nd rest 0

/-- `s.count(sub)` (for the empty needle Python returns `len(s) + 1`). -/
def pyStrCount (s sub : String) : Nat :=
  if sub.data = [] then s.length + 1 else countOccsAux sub.data s.data 0

/-- Per-entry rationale of `_detect_implicit_calculations`:
`e.get("reasoning_segments", "").lower()` — `.lower()` is applied before
any truthiness test, so any non-string value (even a falsy one) raises. -/
def reasoningLower (e : LogEntry) : Except String String :=
  match get_reasoning e with
  | PyVal.str s => Except.ok (pyLower s)
  | _ => Except.error "AttributeError"

/-- `_detect_implicit_calculations` (lines 213–245). -/
def detect_implicit_calculations (entries : List LogEntry) :
    Except String (Option GapReport) := do
  let rats ← mapExcept reasoningLower entries
  let active := rats.filter (fun s => decide (s ≠ ""))
  let perEntryTotals := active.map
    (fun s => (IMPLICIT_CALC_KEYWORDS.map (fun kw => pyStrCount s kw)).sum)
  let runs_with_hits := (perEntryTotals.filter (fun n => decide (0 < n))).length
  let ratio : ℚ :=
    if entries.length ≠ 0 then (runs_with_hits : ℚ) / (entries.length : ℚ) else 0
  if ratio < 0.4 then pure none
  else pure (some
    { problem_detected :=
        "Agent frequently performs implicit calculations that a tool could handle"
      estimated_token_waste := (perEntryTotals.sum : ℚ) * 5
      priority_score := min 1 ratio })

/-- `candidates.sort(key=priority, reverse=True); best = candidates[0]`:
Python's sort is stable, so the head of the descending-sorted list is the
earliest candidate attaining the maximal priority; this fold computes
exactly that (a later candidate replaces the current best only when
strictly greater). -/
def selectBest (b : GapReport) : List GapReport → GapReport
  | [] => b
  | c :: rest => selectBest (if b.priority_score < c.priority_score then c else b) rest

/-- `analyze_gaps` (lines 43–113), on the already-loaded entry list. The
defaults of `min_runs` and `gap_threshold` are `_MIN_RUNS = 5` and the
config constant `EVOLUTION_GAP_THRESHOLD` (whose definition is not under
the sources); both are explicit parameters here. The four passes run in
source order with no exception handling between them. -/
def analyze_gaps (entries : List LogEntry) (min_runs : Nat) (gap_threshold : ℚ) :
    Except String (Option GapReport) :=
  if entries.length < min_runs then Except.ok none
  else do
    let low_conf ← detect_low_confidence entries
    let high_tokens ← detect_high_token_usage entries
    let repeated ← detect_repeated_reasoning entries
    let implicit ← detect_implicit_calculations entries
    let candidates := [low_conf, high_tokens, repeated, implicit].filterMap id
    match candidates with
    | [] => Except.ok none
    | best0 :: rest =>
        let best := selectBest best0 rest
        if best.priority_score < gap_threshold then Except.ok none
        else Except.ok (some best)

/-! ## Well-typedness of loaded entries, and helper lemmas for the
analyzer's monadic plumbing -/

/-- The field holds a JSON number, or is absent. -/
def numOrAbsent : Option PyVal → Bool
  | none => true
  | some (PyVal.num _) => true
  | some _ => false

/-- The field holds a JSON string, or is absent. -/
def strOrAbsent : Option PyVal → Bool
  | none => true
  | some (PyVal.str _) => true
  | some _ => false

/-- An entry none of whose four read fields can make a pass raise: the
numeric fields hold numbers (or are absent) and the rationale holds a
string (or is absent). -/
def wellTypedEntry (e : LogEntry) : Bool :=
  numOrAbsent e.final_score && numOrAbsent e.threshold
    && numOrAbsent e.total_tokens_used && strOrAbsent e.reasoning_segments

lemma except_bind_ok {α β : Type} (x : α) (k : α → Except String β) :
    (Except.ok x >>= k) = k x := rfl

lemma ite_pure {c : Prop} [Decidable c] {α : Type} (a b : α) :
    (if c then (pure a : Except String α) else pure b) = Except.ok (if c then a else b) := by
  split <;> rfl

lemma foldExcept_ok {α β : Type} (f : β → α → Except String β) (l : List α)
    (h : ∀ a ∈ l, ∀ b, ∃ b1, f b a = Except.ok b1) :
    ∀ b, ∃ b2, foldExcept f b l = Except.ok b2 := by
  induction l with
  | nil => intro b; exact ⟨b, rfl⟩
  | cons a rest ih =>
      intro b
      obtain ⟨b1, hb1⟩ := h a (List.mem_cons_self a rest) b
      obtain ⟨b2, hb2⟩ := ih (fun x hx b0 => h x (List.mem_cons_of_mem a hx) b0) b1
      exact ⟨b2, by simp [foldExcept, hb1, except_bind_ok, hb2]⟩

lemma mapExcept_ok {α β : Type} (f : α → Except String β) (l : List α)
    (h : ∀ a ∈ l, ∃ b, f a = Except.ok b) :
    ∃ bs, mapExcept f l = Except.ok bs := by
  induction l with
  | nil => exact ⟨[], rfl⟩
  | cons a rest ih =>
      obtain ⟨b, hb⟩ := h a (List.mem_cons_self a rest)
      obtain ⟨bs, hbs⟩ := ih (fun x hx => h x (List.mem_cons_of_mem a hx))
      exact ⟨b :: bs, by simp [mapExcept, hb, except_bind_ok, hbs]⟩

lemma asNum_getD (o : Option PyVal) (d : ℚ) (h : numOrAbsent o = true) :
    ∃ q, asNum (o.getD (PyVal.num d)) = Except.ok q := by
  rcases o with _ | v
  · exact ⟨d, rfl⟩
  · cases v with
    | num q => exact ⟨q, rfl⟩
    | str s => simp [numOrAbsent] at h
    | null => simp [numOrAbsent] at h

lemma exists_ok_bind {α β : Type} {x : Except String α} {k : α → Except String β}
    (hx : ∃ a, x = Except.ok a) (hk : ∀ a, ∃ b, k a = Except.ok b) :
    ∃ b, (x >>= k) = Except.ok b := by
  obtain ⟨a, ha⟩ := hx
  obtain ⟨b, hb⟩ := hk a
  exact ⟨b, by rw [ha, except_bind_ok, hb]⟩

lemma detect_low_confidence_ok (entries : List LogEntry)
    (h : ∀ e ∈ entries, wellTypedEntry e = true) :
    ∃ v, detect_low_confidence entries = Except.ok v := by
  have hstep : ∀ e ∈ entries, ∀ acc : Nat, ∃ acc1,
      (fun (acc : Nat) (e : LogEntry) => do
        let score ← asNum (get_final_score e)
        let threshold ← asNum (get_threshold e)
        pure (if |score - threshold| ≤ 0.05 then acc + 1 else acc)) acc e
        = Except.ok acc1 := by
    intro e he acc
    have hw := h e he
    simp only [wellTypedEntry, Bool.and_eq_true] at hw
    obtain ⟨q1, hq1⟩ := asNum_getD e.final_score 0 hw.1.1.1
    obtain ⟨q2, hq2⟩ := asNum_getD e.threshold 0.5 hw.1.1.2
    refine ⟨if |q1 - q2| ≤ 0.05 then acc + 1 else acc, ?_⟩
    simp only [get_final_score, get_threshold, hq1, hq2, except_bind_ok]
    rfl
  unfold detect_low_confidence
  refine exists_ok_bind (foldExcept_ok _ entries hstep 0) ?_
  intro a
  simp only [ite_pure]
  exact ⟨_, rfl⟩

lemma detect_high_token_usage_ok (entries : List LogEntry)
    (h : ∀ e ∈ entries, wellTypedEntry e = true) :
    ∃ v, detect_high_token_usage entries = Except.ok v := by
  have hstep : ∀ t ∈ entries.map get_tokens, ∀ acc : List ℚ, ∃ acc1,
      (fun (acc : List ℚ) (t : PyVal) => do
        let q ← asNum t
        pure (if 0 < q then acc ++ [q] else acc)) acc t
        = Except.ok acc1 := by
    intro t ht acc
    rw [List.mem_map] at ht
    obtain ⟨e, he, rfl⟩ := ht
    have hw := h e he
    simp only [wellTypedEntry, Bool.and_eq_true] at hw
    obtain ⟨q, hq⟩ := asNum_getD e.total_tokens_used 0 hw.1.2
    refine ⟨if 0 < q then acc ++ [q] else acc, ?_⟩
    simp only [get_tokens, hq, except_bind_ok]
    rfl
  unfold detect_high_token_usage
  refine exists_ok_bind (foldExcept_ok _ (entries.map get_tokens) hstep []) ?_
  intro a
  by_cases h3 : a.length < 3
  · rw [if_pos h3]
    exact ⟨none, rfl⟩
  · rw [if_neg h3]
    simp only [ite_pure]
    exact ⟨_, rfl⟩

/-- The words a record's rationale contributes to the repeated-reasoning
pass (empty for a falsy or non-string rationale). -/
def specEntryWords (e : LogEntry) : List String :=
  match get_reasoning e with
  | PyVal.str s => findAllWords (pyLower s)
  | _ => []

/-- The trigram occurrence list a record contributes (with multiplicity,
as the `Counter` counts them). -/
def specEntryTrigrams (e : LogEntry) : List String := trigrams (specEntryWords e)

/-- Modelled from the spec: "at least 2 distinct trigrams recur in ≥50%
of all records" — the distinct trigrams contained in at least half of the
records, where each record counts once however often the trigram repeats
inside it. Stated with the same exact integer form of the 50% threshold
as the code (`len ≤ 2 · count`). -/
def specRecurringTrigrams (entries : List LogEntry) : List String :=
  ((entries.map specEntryTrigrams).flatten.dedup).filter
    (fun g => decide (entries.length ≤
      2 * (entries.filter (fun e => (specEntryTrigrams e).contains g)).length))

lemma reasoningWords3_ok (e : LogEntry) (h : strOrAbsent e.reasoning_segments = true) :
    reasoningWords3 e = Except.ok (specEntryWords e) := by
  rcases he : e.reasoning_segments with _ | v
  · have h1 : reasoningWords3 e = Except.ok [] := by
      simp [reasoningWords3, get_reasoning, he, truthy]
    have h2 : specEntryWords e = [] := by
      simp [specEntryWords, get_reasoning, he]
      rfl
    rw [h1, h2]
  · cases v with
    | num q => simp [strOrAbsent, he] at h
    | null => simp [strOrAbsent, he] at h
    | str s =>
        by_cases hs : s = ""
        · subst hs
          have h1 : reasoningWords3 e = Except.ok [] := by
            simp [reasoningWords3, get_reasoning, he, truthy]
          have h2 : specEntryWords e = [] := by
            simp [specEntryWords, get_reasoning, he]
            rfl
          rw [h1, h2]
        · have h1 : reasoningWords3 e = Except.ok (findAllWords (pyLower s)) := by
            simp [reasoningWords3, get_reasoning, he, truthy, hs]
          have h2 : specEntryWords e = findAllWords (pyLower s) := by
            simp [specEntryWords, get_reasoning, he]
          rw [h1, h2]

lemma mapExcept_trigram (entries : List LogEntry)
    (h : ∀ e ∈ entries, strOrAbsent e.reasoning_segments = true) :
    mapExcept (fun e => do
      let ws ← reasoningWords3 e
      pure (trigrams ws)) entries = Except.ok (entries.map specEntryTrigrams) := by
  induction entries with
  | nil => rfl
  | cons e rest ih =>
      have he := reasoningWords3_ok e (h e (List.mem_cons_self e rest))
      have hr := ih (fun x hx => h x (List.mem_cons_of_mem e hx))
      simp only [mapExcept, he, except_bind_ok, hr, List.map_cons]
      rfl

lemma detect_repeated_reasoning_ok (entries : List LogEntry)
    (h : ∀ e ∈ entries, strOrAbsent e.reasoning_segments = true) :
    ∃ v, detect_repeated_reasoning entries = Except.ok v := by
  unfold detect_repeated_reasoning
  refine exists_ok_bind ⟨_, mapExcept_trigram entries h⟩ ?_
  intro a
  simp only [ite_pure]
  exact ⟨_, rfl⟩

lemma reasoningLower_ok (e : LogEntry) (h : strOrAbsent e.reasoning_segments = true) :
    ∃ s, reasoningLower e = Except.ok s := by
  rcases he : e.reasoning_segments with _ | v
  · exact ⟨pyLower "", by simp [reasoningLower, get_reasoning, he]⟩
  · cases v with
    | str s => exact ⟨pyLower s, by simp [reasoningLower, get_reasoning, he]⟩
    | num q => simp [strOrAbsent, he] at h
    | null => simp [strOrAbsent, he] at h

lemma detect_implicit_calculations_ok (entries : List LogEntry)
    (h : ∀ e ∈ entries, strOrAbsent e.reasoning_segments = true) :
    ∃ v, detect_implicit_calculations entries = Except.ok v := by
  unfold detect_implicit_calculations
  refine exists_ok_bind (mapExcept_ok _ entries (fun e he => reasoningLower_ok e (h e he))) ?_
  intro a
  simp only [ite_pure]
  exact ⟨_, rfl⟩

lemma wellTyped_reasoning (e : LogEntry) (h : wellTypedEntry e = true) :
    strOrAbsent e.reasoning_segments = true := by
  simp only [wellTypedEntry, Bool.and_eq_true] at h
  exact h.2

/-! ## Claim theorems about the gap analyzer -/

/-- C9: for every corpus with fewer than `min_runs` entries (default 5 in
the source), `analyze_gaps` returns none immediately, whatever the
entries contain and whatever the other parameters are. -/
theorem analyze_gaps_min_runs (entries : List LogEntry) (min_runs : Nat) (gap_threshold : ℚ)
    (h : entries.length < min_runs) :
    analyze_gaps entries min_runs gap_threshold = Except.ok none := by
  unfold analyze_gaps
  rw [if_pos h]

/-- Witness for C9 at a concrete input: three entries with a five-run
floor. -/
theorem analyze_gaps_min_runs_witness :
    analyze_gaps ([{}, {}, {}] : List LogEntry) 5 0 = Except.ok none :=
  analyze_gaps_min_runs [{}, {}, {}] 5 0 (by decide)

/-- C8 (amended): the four detection passes are not isolated from each
other. An exception inside the first pass propagates out of `analyze_gaps`
unchanged (so the remaining passes never run and the caller sees a raised
exception, not a report-or-none value); only on corpora whose entries are
well-typed — where no pass can raise — does `analyze_gaps` always return a
value. -/
theorem analyze_gaps_error_propagation :
    (∀ (entries : List LogEntry) (mr : Nat) (thr : ℚ) (msg : String),
        mr ≤ entries.length →
        detect_low_confidence entries = Except.error msg →
        analyze_gaps entries mr thr = Except.error msg)
    ∧ (∀ (entries : List LogEntry) (mr : Nat) (thr : ℚ),
        (∀ e ∈ entries, wellTypedEntry e = true) →
        ∃ v, analyze_gaps entries mr thr = Except.ok v) := by
  constructor
  · intro entries mr thr msg hle herr
    unfold analyze_gaps
    rw [if_neg (Nat.not_lt.mpr hle), herr]
    rfl
  · intro entries mr thr h
    by_cases hlen : entries.length < mr
    · exact ⟨none, by unfold analyze_gaps; rw [if_pos hlen]⟩
    · have hstr : ∀ e ∈ entries, strOrAbsent e.reasoning_segments = true :=
        fun e he => wellTyped_reasoning e (h e he)
      unfold analyze_gaps
      rw [if_neg hlen]
      refine exists_ok_bind (detect_low_confidence_ok entries h) ?_
      intro v1
      refine exists_ok_bind (detect_high_token_usage_ok entries h) ?_
      intro v2
      refine exists_ok_bind (detect_repeated_reasoning_ok entries hstr) ?_
      intro v3
      refine exists_ok_bind (detect_implicit_calculations_ok entries hstr) ?_
      intro v4
      rcases hc : [v1, v2, v3, v4].filterMap id with _ | ⟨b0, rest⟩
      · exact ⟨none, by simp only [hc]⟩
      · by_cases hthr : (selectBest b0 rest).priority_score < thr
        · exact ⟨none, by simp only [hc]; rw [if_pos hthr]⟩
        · exact ⟨some (selectBest b0 rest), by simp only [hc]; rw [if_neg hthr]⟩

/-- A five-entry corpus whose first entry has a string where a number
belongs: the low-confidence pass raises a `TypeError` on it. -/
def badCorpus : List LogEntry :=
  [{ final_score := some (PyVal.str "oops") }, {}, {}, {}, {}]

/-- C8 counterexample: on `badCorpus` (which meets the five-run floor) the
exception raised inside the first detection pass escapes `analyze_gaps`
itself — it does not return a report-or-none value, and the later passes
never run, even though e.g. the repeated-reasoning pass alone would have
completed on the same corpus. -/
theorem analyze_gaps_exception_cex :
    analyze_gaps badCorpus 5 0 = Except.error "TypeError"
    ∧ detect_repeated_reasoning badCorpus = Except.ok none
    ∧ 5 ≤ badCorpus.length :=
  ⟨rfl, rfl, by decide⟩

/-- A five-entry well-typed corpus. -/
def wtCorpus : List LogEntry :=
  [{ final_score := some (PyVal.num 1), reasoning_segments := some (PyVal.str "calculate") },
   {}, {}, {}, {}]

/-- Witness for C8 (amended) at concrete inputs: the propagation half on
`badCorpus` and the well-typed half on `wtCorpus`. -/
theorem analyze_gaps_error_propagation_witness :
    analyze_gaps badCorpus 5 0 = Except.error "TypeError"
    ∧ ∃ v, analyze_gaps wtCorpus 5 0 = Except.ok v :=
  ⟨analyze_gaps_error_propagation.1 badCorpus 5 0 "TypeError" (by decide) (by rfl),
   analyze_gaps_error_propagation.2 wtCorpus 5 0 (by decide)⟩

/-- The distinct trigrams the code's threshold retains: total occurrence
count (with within-record multiplicity) at least half the number of
records. -/
def codeQualifying (entries : List LogEntry) : List String :=
  (entries.map specEntryTrigrams).flatten.dedup.filter
    (fun g => decide (entries.length ≤ 2 * (entries.map specEntryTrigrams).flatten.count g))

/-- C7 (amended): on corpora with well-typed rationale fields, the
repeated-reasoning pass abstains unless at least 2 distinct case-folded
trigrams each reach a TOTAL occurrence count (counting repetitions inside
a single record) of at least 50% of the number of records — not a
per-record recurrence count — and when it fires its priority is the
count of qualifying trigrams divided by 10, capped at 1. -/
theorem repeated_reasoning_characterization (entries : List LogEntry)
    (h : ∀ e ∈ entries, strOrAbsent e.reasoning_segments = true) :
    ((codeQualifying entries).length < 2 →
        detect_repeated_reasoning entries = Except.ok none)
    ∧ (2 ≤ (codeQualifying entries).length →
        detect_repeated_reasoning entries = Except.ok (some
          { problem_detected := "Repeated reasoning patterns across runs suggest missing tooling"
            estimated_token_waste := ((((codeQualifying entries).map
                (fun g => (entries.map specEntryTrigrams).flatten.count g)).sum * 3 : Nat) : ℚ)
            priority_score := min 1 (((codeQualifying entries).length : ℚ) / 10) })) := by
  unfold detect_repeated_reasoning
  rw [mapExcept_trigram entries h, except_bind_ok]
  constructor
  · intro hlt
    unfold codeQualifying at hlt
    simp only [ite_pure]
    rw [if_pos hlt]
  · intro hge
    unfold codeQualifying at hge ⊢
    simp only [ite_pure]
    rw [if_neg (Nat.not_lt.mpr hge)]

/-- A four-record corpus where one record's rationale repeats the same
trigram three times and no trigram occurs in more than one record. -/
def repeatCexCorpus : List LogEntry :=
  [{ reasoning_segments := some (PyVal.str "a b c a b c a b c") },
   { reasoning_segments := some (PyVal.str "") }, {}, {}]

/-- C7 counterexample: the pass fires on `repeatCexCorpus` (the trigrams
"a b c", "b c a", "c a b" have total counts 3, 2, 2 ≥ 4·0.5 thanks to
repetition inside the first record) even though not a single trigram
recurs in 50% of the records — the claim says the pass must abstain
unless at least 2 distinct trigrams do. -/
theorem repeated_reasoning_multiplicity_cex :
    (∃ r, detect_repeated_reasoning repeatCexCorpus = Except.ok (some r))
    ∧ specRecurringTrigrams repeatCexCorpus = []
    ∧ repeatCexCorpus.length = 4 :=
  ⟨⟨_, rfl⟩, rfl, rfl⟩

/-- Witness for C7 (amended) at a concrete input: on `repeatCexCorpus`
three trigrams qualify by total count, so the pass fires with priority
3/10. -/
theorem repeated_reasoning_characterization_witness :
    2 ≤ (codeQualifying repeatCexCorpus).length
    ∧ detect_repeated_reasoning repeatCexCorpus = Except.ok (some
        { problem_detected := "Repeated reasoning patterns across runs suggest missing tooling"
          estimated_token_waste := ((((codeQualifying repeatCexCorpus).map
              (fun g => (repeatCexCorpus.map specEntryTrigrams).flatten.count g)).sum * 3
                : Nat) : ℚ)
          priority_score := min 1 (((codeQualifying repeatCexCorpus).length : ℚ) / 10) }) :=
  ⟨by decide, (repeated_reasoning_characterization repeatCexCorpus (by decide)).2 (by decide)⟩
